import Mathlib

/-!
Verification of the identity-token engine (dna_utils.py, authority.py,
flask_api.py) against its natural-language specification.

The Python source is shallowly embedded: pure functions become Lean
functions on `String` / `List Char` / `Nat`; the CSV/JSON registry state
becomes an explicit `List` of row structures threaded through the
operations; exceptions become `Except String`; the `secrets.randbelow`
randomness source becomes an explicit oracle parameter
`randbelow : Nat → Nat` (the library contract `randbelow n < n` is taken
as a hypothesis where a theorem needs it).

Python-specific behaviours that matter to the claims are modelled
explicitly:
  * `str.strip()` / `str.lower()` / `str.upper()` (ASCII case mapping —
    all inputs considered here are ASCII, where Python agrees);
  * `f"{ord(c):08b}"` (minimum-width-8 binary of the code point);
  * `format(n, 'x')` (minimal lowercase hex, `"0"` for 0);
  * the dynamic equality `str == dict`, which is `False` in Python: the
    value stored in the CSV `token` cell by `register_node` is the
    `str()` rendering of the dict returned by `generate_dna_token`,
    while `verify_node` compares it against a freshly recomputed dict,
    so the two sides of the comparison live in a small `PyVal` type;
  * the regexes of `is_valid_ip` / `is_valid_mac`, expanded to the
    equivalent explicit matchers (the `$` anchor also matching just
    before one trailing newline is modelled, and `\d` is modelled as the
    full Unicode decimal-digit class `Nd` that Python's `re` matches on
    `str` patterns).
-/

deriving instance DecidableEq for Except

/-! ### Python string primitives -/

/-- Code points Python's `str.isspace` (and hence `str.strip()`) treats as
whitespace. -/
def pyIsSpace (c : Char) : Bool :=
  c.toNat = 9 || c.toNat = 10 || c.toNat = 11 || c.toNat = 12 || c.toNat = 13 ||
  c.toNat = 28 || c.toNat = 29 || c.toNat = 30 || c.toNat = 31 || c.toNat = 32 ||
  c.toNat = 133 || c.toNat = 160 || c.toNat = 5760 ||
  (8192 ≤ c.toNat && c.toNat ≤ 8202) ||
  c.toNat = 8232 || c.toNat = 8233 || c.toNat = 8239 || c.toNat = 8287 ||
  c.toNat = 12288

/-- Python `s.strip()` on a list of characters. -/
def pyStripList (l : List Char) : List Char :=
  ((l.dropWhile pyIsSpace).reverse.dropWhile pyIsSpace).reverse

/-- Python `s.strip()`. -/
def pyStrip (s : String) : String := ⟨pyStripList s.data⟩

/-- Python `str.lower` restricted to ASCII case mapping (agrees with Python
on every ASCII string, which covers all inputs of this development). -/
def pyLowerChar (c : Char) : Char :=
  if 'A' ≤ c && c ≤ 'Z' then Char.ofNat (c.toNat + 32) else c

/-- Python `s.lower()` (ASCII fragment). -/
def pyLower (s : String) : String := ⟨s.data.map pyLowerChar⟩

/-- Python `str.upper` restricted to ASCII case mapping. -/
def pyUpperChar (c : Char) : Char :=
  if 'a' ≤ c && c ≤ 'z' then Char.ofNat (c.toNat - 32) else c

/-- Python `s.upper()` (ASCII fragment). -/
def pyUpper (s : String) : String := ⟨s.data.map pyUpperChar⟩

/-- Decimal digits of `n`, most significant first (`Nat.toDigits 10`). -/
def natToDec (n : Nat) : String := ⟨Nat.toDigits 10 n⟩

/-- Python `format(n, 'x')` for `n ≥ 0`: minimal lowercase hexadecimal,
`"0"` for zero. -/
def natToHexLower (n : Nat) : String := ⟨Nat.toDigits 16 n⟩

/-- Python `f"{n:08b}"`: binary digits of `n`, left-padded with `'0'` to a
minimum width of 8 (wider if `n ≥ 256`). -/
def binPad8 (n : Nat) : List Char :=
  let ds := Nat.toDigits 2 n
  List.replicate (8 - ds.length) '0' ++ ds

/-! ### dna_utils.py -/

/-- `dna_utils._normalize`: `(ip.strip().lower(), hostname.strip().lower(),
mac.strip().lower())`. -/
def dnaNormalize (ip hostname mac : String) : String × String × String :=
  (pyLower (pyStrip ip), pyLower (pyStrip hostname), pyLower (pyStrip mac))

/-- `dna_utils._str_to_binary`: `''.join(f"{ord(c):08b}" for c in s)`. -/
def str_to_binary (s : String) : String :=
  ⟨(s.data.map (fun c => binPad8 c.toNat)).flatten⟩

/-- The two-bit table of `dna_utils._binary_to_dna`:
`{'00':'A','01':'C','10':'G','11':'T'}` (only `'0'`/`'1'` characters ever
reach it; the catch-all arm is unreachable on such inputs). -/
def dnaPairChar (a b : Char) : Char :=
  match a, b with
  | '0', '0' => 'A'
  | '0', '1' => 'C'
  | '1', '0' => 'G'
  | '1', '1' => 'T'
  | _, _ => 'A'

/-- The pairwise walk `bin_str[i:i+2] for i in range(0, len, 2)` of
`_binary_to_dna` (applied after the odd-length padding, so the singleton
arm is unreachable there). -/
def binPairsToDna : List Char → List Char
  | a :: b :: rest => dnaPairChar a b :: binPairsToDna rest
  | _ => []

/-- `dna_utils._binary_to_dna`: prepend `'0'` when the bit count is odd,
then map consecutive bit pairs through the table. -/
def binary_to_dna (bin : String) : String :=
  let l := if bin.data.length % 2 ≠ 0 then '0' :: bin.data else bin.data
  ⟨binPairsToDna l⟩

/-- The symbol table of `dna_utils._dna_to_base4_digits`:
`{'A':'0','C':'1','G':'2','T':'3'}` (only `ACGT` ever reaches it). -/
def dnaDigitChar (c : Char) : Char :=
  match c with
  | 'A' => '0'
  | 'C' => '1'
  | 'G' => '2'
  | 'T' => '3'
  | _ => '0'

/-- `dna_utils._dna_to_base4_digits`. -/
def dna_to_base4_digits (dna : String) : String :=
  ⟨dna.data.map dnaDigitChar⟩

/-- `dna_utils._base4_to_int`: `val = val * 4 + int(ch)` over the digit
characters. -/
def base4_to_int (base4 : String) : Nat :=
  base4.data.foldl (fun val ch => val * 4 + (ch.toNat - 48)) 0

/-- `dna_utils.generate_full_hex`: normalize, join with `'|'`, append
`'|' + salt` when `salt` is truthy (Python `if salt:` is false both for
`None` and for `""`), then run the binary → DNA → base-4 → integer → hex
pipeline. -/
def generate_full_hex (ip hostname mac : String) (salt : Option String) : String :=
  let n := dnaNormalize ip hostname mac
  let combined := n.1 ++ "|" ++ n.2.1 ++ "|" ++ n.2.2
  let combined :=
    match salt with
    | some s => if s ≠ "" then combined ++ "|" ++ s else combined
    | none => combined
  natToHexLower (base4_to_int (dna_to_base4_digits (binary_to_dna (str_to_binary combined))))

/-- The dict returned by `dna_utils.generate_dna_token`. -/
structure DnaDict where
  full_hex : String
  token : String
  offset : Nat
  window_len : Int
deriving DecidableEq, Repr

/-- Python list slice `l[a : a + k]` for `a, k ≥ 0`. -/
def pySlice (l : List Char) (a k : Nat) : List Char := (l.drop a).take k

/-- `dna_utils.generate_dna_token`.  `randbelow` is the
`secrets.randbelow` oracle; `window_len` is an `Int` so that the
`window_len <= 0` guard is modelled faithfully; a supplied `full_hexArg`
skips the derivation exactly as in the source.  In the
`L <= window_len` branch `hex_upper.rjust(window_len, '0')[-window_len:]`
equals the left-padded string itself because the padded string has
length exactly `window_len`. -/
def generate_dna_token (randbelow : Nat → Nat)
    (ip hostname mac : String) (salt : Option String)
    (random_window : Bool) (window_len : Int)
    (full_hexArg : Option String) : Except String DnaDict :=
  let full_hex :=
    match full_hexArg with
    | none => generate_full_hex ip hostname mac salt
    | some fh => fh
  let hex_upper := pyUpper full_hex
  let L := hex_upper.data.length
  if window_len ≤ 0 then
    .error "window_len must be positive"
  else if (L : Int) ≤ window_len then
    let token : String := ⟨List.replicate (window_len.toNat - L) '0' ++ hex_upper.data⟩
    .ok ⟨hex_upper, token, 0, window_len⟩
  else
    let wl := window_len.toNat
    let max_offset := L - wl
    let offset := if random_window then randbelow (max_offset + 1) else max_offset
    .ok ⟨hex_upper, ⟨pySlice hex_upper.data offset wl⟩, offset, window_len⟩

/-! ### authority.py — validators

`is_valid_ip` matches `^((25[0-5]|2[0-4]\d|1?\d?\d)\.){3}(25[0-5]|2[0-4]\d|1?\d?\d)$`
against the raw string; `is_valid_mac` strips the argument and matches one of
`^([0-9A-Fa-f]{2}:){5}[0-9A-Fa-f]{2}$`, `^[0-9A-Fa-f]{12}$`,
`^([0-9A-Fa-f]{4}\.){2}[0-9A-Fa-f]{4}$`.  The regexes are expanded into
explicit matchers: the octet/group alternatives contain no separator
character, so a `$`-anchored match of `(group sep){k} group` is exactly a
`splitOn` decomposition into `k+1` matching groups.  Python's `$` also
matches just before one trailing `'\n'`, which `reDollar` reproduces;
`\d` on a `str` pattern matches every Unicode decimal digit (category
`Nd`), which `pyIsDigit` models through the full table of `Nd` runs. -/

/-- The ASCII digit class `[0-9]` (used by the explicit character classes
of the regexes and by the claim-side reading of "decimal"). -/
def isDigitChar (c : Char) : Bool := '0' ≤ c && c ≤ '9'

/-- The class `[0-9A-Fa-f]`. -/
def isHexChar (c : Char) : Bool :=
  isDigitChar c || ('a' ≤ c && c ≤ 'f') || ('A' ≤ c && c ≤ 'F')

/-- First code points of the runs of Unicode decimal digits (category
`Nd`): every `Nd` character lies in a run of exactly ten code points
`b, b+1, …, b+9` carrying the digit values `0, …, 9`. -/
def ndBases : List Nat :=
  [48, 1632, 1776, 1984, 2406, 2534, 2662, 2790, 2918, 3046, 3174, 3302,
   3430, 3558, 3664, 3792, 3872, 4160, 4240, 6112, 6160, 6470, 6608, 6784,
   6800, 6992, 7088, 7232, 7248, 42528, 43216, 43264, 43472, 43504, 43600,
   44016, 65296, 66720, 68912, 69734, 69872, 69942, 70096, 70384, 70736,
   70864, 71248, 71360, 71472, 71904, 72016, 72784, 73040, 73120, 92768,
   92864, 93008, 120782, 120792, 120802, 120812, 120822, 123200, 123632,
   125264, 130032]

/-- Python's `\d` on `str` patterns: any Unicode decimal digit. -/
def pyIsDigit (c : Char) : Bool :=
  ndBases.any (fun b => b ≤ c.toNat && c.toNat ≤ b + 9)

/-- The decimal value of a Unicode decimal digit (its position inside its
`Nd` run); 0 for non-digits. -/
def pyDigitVal (c : Char) : Nat :=
  match ndBases.find? (fun b => b ≤ c.toNat && c.toNat ≤ b + 9) with
  | some b => c.toNat - b
  | none => 0

/-- One octet alternative `25[0-5]|2[0-4]\d|1?\d?\d` of the IPv4 regex
(the bracketed classes are literal ASCII; the `\d` positions accept any
Unicode decimal digit). -/
def isValidOctet : List Char → Bool
  | ['2', '5', c] => '0' ≤ c && c ≤ '5'
  | ['2', c, d] => ('0' ≤ c && c ≤ '4') && pyIsDigit d
  | ['1', c, d] => pyIsDigit c && pyIsDigit d
  | [c, d] => pyIsDigit c && pyIsDigit d
  | [c] => pyIsDigit c
  | _ => false

/-- Python's `$` anchor: the pattern core matches the whole string, or the
whole string minus one trailing newline. -/
def reDollar (core : List Char → Bool) (l : List Char) : Bool :=
  core l || (l.getLast? = some '\n' && core l.dropLast)

/-- Four dot-separated octet matches. -/
def ipCore (l : List Char) : Bool :=
  match l.splitOn '.' with
  | [a, b, c, d] => isValidOctet a && isValidOctet b && isValidOctet c && isValidOctet d
  | _ => false

/-- `authority.is_valid_ip`. -/
def is_valid_ip (ip : String) : Bool := reDollar ipCore ip.data

/-- `[0-9A-Fa-f]{2}`. -/
def hexPair : List Char → Bool
  | [a, b] => isHexChar a && isHexChar b
  | _ => false

/-- `[0-9A-Fa-f]{4}`. -/
def hexQuad : List Char → Bool
  | [a, b, c, d] => isHexChar a && isHexChar b && isHexChar c && isHexChar d
  | _ => false

/-- `^([0-9A-Fa-f]{2}:){5}[0-9A-Fa-f]{2}$`. -/
def macColonCore (l : List Char) : Bool :=
  match l.splitOn ':' with
  | [a, b, c, d, e, f] =>
    hexPair a && hexPair b && hexPair c && hexPair d && hexPair e && hexPair f
  | _ => false

/-- `^[0-9A-Fa-f]{12}$`. -/
def macBareCore (l : List Char) : Bool :=
  l.length = 12 && l.all isHexChar

/-- `^([0-9A-Fa-f]{4}\.){2}[0-9A-Fa-f]{4}$`. -/
def macDotCore (l : List Char) : Bool :=
  match l.splitOn '.' with
  | [a, b, c] => hexQuad a && hexQuad b && hexQuad c
  | _ => false

/-- `authority.is_valid_mac`: strips, then tries the three patterns. -/
def is_valid_mac (mac : String) : Bool :=
  let m := pyStripList mac.data
  reDollar macColonCore m || reDollar macBareCore m || reDollar macDotCore m

/-! ### authority.py — registry operations

The CSV registry is modelled as a `List Row` (the data rows; the header
is constant).  `register_node` assigns the *dict* returned by
`generate_dna_token` to the row's `token` field; the CSV writer renders
it with `str()`, so the persisted cell is the Python `str()` of the dict
(`pyStrOfDict`).  CSV quoting round-trips that text unchanged.
`verify_node` then compares this string cell against a freshly
recomputed dict; Python's `==` between a `str` and a `dict` is `False`,
which `pyValEq` reproduces on the `PyVal` sum of the two shapes. -/

/-- One CSV data row: fields `ip,hostname,mac,token,created`. -/
structure Row where
  ip : String
  hostname : String
  mac : String
  token : String
  created : String
deriving DecidableEq, Repr

/-- The two runtime shapes compared by `verify_node`'s
`stored == recomputed`. -/
inductive PyVal where
  | str (s : String)
  | dict (d : DnaDict)
deriving DecidableEq

/-- Python `==` on those shapes: values of different types compare
unequal. -/
def pyValEq : PyVal → PyVal → Bool
  | .str a, .str b => a = b
  | .dict a, .dict b => a = b
  | _, _ => false

/-- Decimal rendering of an `Int` (Python `str(i)`). -/
def intToDec (i : Int) : String :=
  if i < 0 then "-" ++ natToDec (-i).toNat else natToDec i.toNat

/-- Python `str()` of the token dict, insertion order
`full_hex, token, offset, window_len` (this is the text the CSV cell
holds after `register_node` / `rotate_tokens`). -/
def pyStrOfDict (d : DnaDict) : String :=
  "\x7b'full_hex': '" ++ d.full_hex ++ "', 'token': '" ++ d.token ++
  "', 'offset': " ++ natToDec d.offset ++ ", 'window_len': " ++
  intToDec d.window_len ++ "\x7d"

/-- The duplicate scan of `register_node`: update the first row whose raw
`ip`, `mac` and `hostname` all equal the arguments (the loop `break`s),
reporting whether one was found. -/
def updateFirstRow (ip hostname mac tokenStr now : String) :
    List Row → List Row × Bool
  | [] => ([], false)
  | r :: rest =>
    if r.ip = ip && r.mac = mac && r.hostname = hostname then
      ({ r with token := tokenStr, created := now } :: rest, true)
    else
      let p := updateFirstRow ip hostname mac tokenStr now rest
      (r :: p.1, p.2)

/-- `authority.register_node`.  Returns the registry rows on disk after
the call together with the returned token dict, or the `ValueError`
message; on an error the rows are returned unchanged because the
exception is raised before the file is rewritten. -/
def register_node (randbelow : Nat → Nat) (now : String)
    (ip hostname mac : String) (salt : Option String)
    (rows : List Row) : List Row × Except String DnaDict :=
  if ¬ is_valid_ip ip then (rows, .error ("Invalid IP address: " ++ ip))
  else if ¬ is_valid_mac mac then (rows, .error ("Invalid MAC address: " ++ mac))
  else
    match generate_dna_token randbelow ip hostname mac salt true 8 none with
    | .error e => (rows, .error e)
    | .ok tok =>
      let p := updateFirstRow ip hostname mac (pyStrOfDict tok) now rows
      if p.2 then (p.1, .ok tok)
      else (rows ++ [⟨ip, hostname, mac, pyStrOfDict tok, now⟩], .ok tok)

/-- The registry loop of `verify_node`: the first row with matching
`hostname` decides the result (the loop returns inside the `if`); no
match falls through to `False`. -/
def verify_scan (ip hostname mac : String) (recomputed : DnaDict) :
    List Row → Bool
  | [] => false
  | r :: rest =>
    if r.hostname = hostname then
      pyValEq (.str r.token) (.dict recomputed) && r.ip = ip && r.mac = mac
    else verify_scan ip hostname mac recomputed rest

/-- `authority.verify_node`.  Invalid inputs short-circuit to `False`;
otherwise a fresh token dict is recomputed (random window, fresh
`secrets.randbelow` draw) and compared against the stored CSV cell. -/
def verify_node (randbelow : Nat → Nat) (ip hostname mac : String)
    (salt : Option String) (rows : List Row) : Except String Bool :=
  if ¬ is_valid_ip ip then .ok false
  else if ¬ is_valid_mac mac then .ok false
  else
    match generate_dna_token randbelow ip hostname mac salt true 8 none with
    | .error e => .error e
    | .ok recomputed => .ok (verify_scan ip hostname mac recomputed rows)

/-- The per-row re-derivation loop of `rotate_tokens`: every row gets the
freshly generated dict (as the CSV `str()` text) and a refreshed
`created` stamp; an exception anywhere aborts before the file is
rewritten, so the error case carries no rows. -/
def rotateRows (randbelow : Nat → Nat) (now salt : String) :
    List Row → Except String (List Row)
  | [] => .ok []
  | r :: rest =>
    match generate_dna_token randbelow r.ip r.hostname r.mac (some salt) true 8 none with
    | .error e => .error e
    | .ok d =>
      match rotateRows randbelow now salt rest with
      | .error e => .error e
      | .ok rest' => .ok ({ r with token := pyStrOfDict d, created := now } :: rest')

/-- `authority.rotate_tokens`.  The UTC clock is abstracted into
`isoDatePlusDays : Int → String`, the ISO rendering of
`(utcnow() + timedelta(days=days)).date()`; `now` abstracts the
`utcnow().isoformat()` stamps. -/
def rotate_tokens (randbelow : Nat → Nat) (now : String)
    (isoDatePlusDays : Int → String) (days : Int) (saltPrefix : String)
    (rows : List Row) : Except String (List Row × String) :=
  let salt := saltPrefix ++ "-" ++ isoDatePlusDays days
  match rotateRows randbelow now salt rows with
  | .error e => .error e
  | .ok rows' => .ok (rows', salt)

/-- `authority._ensure_registry`: an absent CSV file is replaced by an
empty registry (header only); an existing file is untouched. -/
def ensure_registry : Option (List Row) → Option (List Row)
  | none => some []
  | some rows => some rows

/-! ### flask_api.py -/

/-- One JSON registry entry of `flask_api.py` (second-generation layout:
`full_hex`, `offset` and `window_len` are persisted). -/
structure FRow where
  ip : String
  hostname : String
  mac : String
  full_hex : String
  token : String
  offset : Nat
  window_len : Int
  created : String
deriving DecidableEq, Repr

/-- `flask_api._read_registry`.  The JSON file is `none` when absent,
`some contents` otherwise; `jsonParse` abstracts `json.load`, returning
`.error` exactly when `json.JSONDecodeError` would be raised.  The
source returns `[]` for an absent file and — via the
`except json.JSONDecodeError: return []` handler — also for malformed
contents. -/
def read_registry (jsonParse : String → Except Unit (List FRow)) :
    Option String → List FRow
  | none => []
  | some contents =>
    match jsonParse contents with
    | .ok rows => rows
    | .error _ => []

/-- The loop of `flask_api.verify`: `stored_token` is the slice of the
*stored* `full_hex` at the *stored* offset and window length, compared
with the caller-supplied token; non-matching rows are skipped. -/
def flask_verify_scan (hostname token : String) : List FRow → Bool
  | [] => false
  | r :: rest =>
    let stored_token : String := ⟨pySlice r.full_hex.data r.offset r.window_len.toNat⟩
    if r.hostname = hostname && stored_token = token then true
    else flask_verify_scan hostname token rest

/-- `flask_api.verify` (POST body): succeeds iff some registry row
matches by hostname and by the slice of its stored `full_hex`.  It takes
no address, hardware id or salt, and never calls the encoder. -/
def flask_verify (hostname token : String) (rows : List FRow) : Bool :=
  flask_verify_scan hostname token rows

/-- The loop body of `flask_api.rotate`: re-derivation with
`random_window=False`, `window_len=8` and **no salt**. -/
def flask_rotate_rows (now : String) : List FRow → Except String (List FRow)
  | [] => .ok []
  | r :: rest =>
    match generate_dna_token (fun _ => 0) r.ip r.hostname r.mac none false 8 none with
    | .error e => .error e
    | .ok d =>
      match flask_rotate_rows now rest with
      | .error e => .error e
      | .ok rest' =>
        .ok ({ r with token := d.token, full_hex := d.full_hex,
                      offset := d.offset, window_len := d.window_len,
                      created := now } :: rest')

/-- `flask_api.rotate`: rewrites every row deterministically and
unsalted (the windower's oracle is irrelevant in deterministic mode, so
a dummy is passed). -/
def flask_rotate (now : String) (rows : List FRow) : Except String (List FRow) :=
  flask_rotate_rows now rows

/-! ### Helper and claim-side definitions -/

/-- Whether an `Except` is a success. -/
def exceptOk : Except String DnaDict → Bool
  | .ok _ => true
  | .error _ => false

/-- The raw identity triple of a CSV row (the key `register_node`
actually deduplicates on). -/
def rowKey (r : Row) : String × String × String := (r.ip, r.hostname, r.mac)

/-- The normalized (trimmed, lowercased) identity triple of a CSV row —
the "same device" relation of the specification's data model. -/
def normKey (r : Row) : String × String × String :=
  (pyLower (pyStrip r.ip), pyLower (pyStrip r.hostname), pyLower (pyStrip r.mac))

/-- The totalized window result for the always-succeeding call pattern
`generate_dna_token(…, random_window=True, window_len=8)` used by
`register_node`, `verify_node` and `rotate_tokens` (the junk fallback is
unreachable because the window length is positive). -/
def genToken8 (randbelow : Nat → Nat) (ip hostname mac : String)
    (salt : Option String) : DnaDict :=
  match generate_dna_token randbelow ip hostname mac salt true 8 none with
  | .ok d => d
  | .error _ => ⟨"", "", 0, 0⟩

/-- Claim side (C3): what the windower's output must satisfy for a given
FullCode `fh` and window length, per the specification's §4.3. -/
def windowerClaim (randbelow : Nat → Nat) (ip hostname mac : String)
    (salt : Option String) (random_window : Bool) (window_len : Int)
    (fh : String) : Prop :=
  (window_len ≤ 0 →
    generate_dna_token randbelow ip hostname mac salt random_window window_len (some fh) =
      .error "window_len must be positive") ∧
  (0 < window_len →
    ∃ d : DnaDict,
      generate_dna_token randbelow ip hostname mac salt random_window window_len (some fh) =
        .ok d ∧
      d.full_hex = pyUpper fh ∧
      d.window_len = window_len ∧
      d.token.data.length = window_len.toNat ∧
      ((fh.data.length : Int) ≤ window_len →
        d.token.data =
          List.replicate (window_len.toNat - fh.data.length) '0' ++ (pyUpper fh).data ∧
        d.offset = 0) ∧
      (window_len < (fh.data.length : Int) →
        d.offset ≤ fh.data.length - window_len.toNat ∧
        d.token.data = pySlice (pyUpper fh).data d.offset window_len.toNat ∧
        (random_window = false → d.offset = fh.data.length - window_len.toNat)))

/-- Claim side (C7): decimal value of a digit string. -/
def decimalVal (l : List Char) : Nat :=
  l.foldl (fun a c => a * 10 + (c.toNat - 48)) 0

/-- Claim side (C7): one octet of a dotted-quad decimal address — a
non-empty string of decimal digits whose value is at most 255. -/
def claimOctet (l : List Char) : Bool :=
  !l.isEmpty && l.all isDigitChar && decimalVal l ≤ 255

/-- Claim side (C7): dotted-quad decimal with each octet in 0–255. -/
def claimAddrCore (l : List Char) : Bool :=
  match l.splitOn '.' with
  | [a, b, c, d] => claimOctet a && claimOctet b && claimOctet c && claimOctet d
  | _ => false

/-- Claim side (C7, as stated): the address predicate of the claim,
reading "decimal" as the ordinary ASCII decimal digits. -/
def claimAddrValid (s : String) : Bool := claimAddrCore s.data

/-- Claim side (C7, amended): decimal value of a digit string whose
digits may come from any Unicode decimal-digit run. -/
def pyDecimalVal (l : List Char) : Nat :=
  l.foldl (fun a c => a * 10 + pyDigitVal c) 0

/-- Claim side (C7, amended): one octet — a non-empty string of Unicode
decimal digits (what Python's `\d` matches) whose decimal value is at
most 255. -/
def claimOctetUni (l : List Char) : Bool :=
  !l.isEmpty && l.all pyIsDigit && pyDecimalVal l ≤ 255

/-- Claim side (C7, amended): dotted-quad of Unicode-decimal octets with
each value in 0–255. -/
def claimAddrUniCore (l : List Char) : Bool :=
  match l.splitOn '.' with
  | [a, b, c, d] =>
    claimOctetUni a && claimOctetUni b && claimOctetUni c && claimOctetUni d
  | _ => false

/-- Claim side (C7, amended): the amended address predicate — dotted-quad
of Unicode-decimal octets in 0–255, ignoring at most one trailing
newline (the concessions the `\d` class and the `$` anchor force). -/
def claimAddrUniNL (s : String) : Bool :=
  claimAddrUniCore s.data ||
    (s.data.getLast? = some '\n' && claimAddrUniCore s.data.dropLast)

/-- Claim side (C7): colon-separated hex octets. -/
def claimHwColon (l : List Char) : Bool :=
  (l.splitOn ':').length = 6 && (l.splitOn ':').all hexPair

/-- Claim side (C7): dot-grouped 4-hex-digit groups. -/
def claimHwDot (l : List Char) : Bool :=
  (l.splitOn '.').length = 3 && (l.splitOn '.').all hexQuad

/-- Claim side (C7): a bare 12-hex-digit string. -/
def claimHwBare (l : List Char) : Bool :=
  l.length = 12 && l.all isHexChar

/-- Claim side (C7, as stated): the hardware-id predicate of the claim,
on the string exactly as supplied. -/
def claimHwValid (s : String) : Bool :=
  claimHwColon s.data || claimHwBare s.data || claimHwDot s.data

/-- Claim side (C7, amended): the claim's hardware-id forms applied to
the whitespace-trimmed identifier (the concession the source's
`mac.strip()` forces). -/
def claimHwValidStripped (s : String) : Bool :=
  claimHwValid ⟨pyStripList s.data⟩

/-! Claim side (C9): the FullCode pipeline exactly as the claim words it —
one byte per character of the concatenated normalized text (the characters
considered are single-byte), each byte's 8 bits most-significant first,
bits paired (one `0` bit prepended if the count is odd), each pair mapped
through the fixed reversible 4-symbol table and back to a base-4 digit,
the digit string read as a base-4 integer and rendered as minimal
lowercase hex. -/

/-- The four symbols of the reversible table. -/
inductive DnaSym where
  | A
  | C
  | G
  | T
deriving DecidableEq, Repr

/-- The 8 bits of a byte, most significant first. -/
def specByteBits (b : Nat) : List Bool :=
  (List.range 8).map (fun i => Nat.testBit b (7 - i))

/-- Consecutive bit pairs. -/
def specPairs : List Bool → List (Bool × Bool)
  | a :: b :: t => (a, b) :: specPairs t
  | _ => []

/-- Pairing with a single leading `0` bit when the count is odd. -/
def specPadPairs (bits : List Bool) : List (Bool × Bool) :=
  if bits.length % 2 = 1 then specPairs (false :: bits) else specPairs bits

/-- The fixed 2-bit → symbol table. -/
def specPairSym : Bool × Bool → DnaSym
  | (false, false) => .A
  | (false, true) => .C
  | (true, false) => .G
  | (true, true) => .T

/-- The inverse reading of the table as base-4 digits. -/
def specSymDigit : DnaSym → Nat
  | .A => 0
  | .C => 1
  | .G => 2
  | .T => 3

/-- Base-4 digits, most significant first, as an integer. -/
def specBase4Val (ds : List Nat) : Nat := ds.foldl (fun a d => 4 * a + d) 0

/-- Claim side (C9): the full pipeline from the claim's words. -/
def specFullCode (ip hostname mac : String) (salt : Option String) : String :=
  let n := dnaNormalize ip hostname mac
  let combined := n.1 ++ "|" ++ n.2.1 ++ "|" ++ n.2.2
  let combined :=
    match salt with
    | some s => if s ≠ "" then combined ++ "|" ++ s else combined
    | none => combined
  let bytes := combined.data.map Char.toNat
  natToHexLower (specBase4Val
    (((specPadPairs ((bytes.map specByteBits).flatten)).map specPairSym).map specSymDigit))

/-- The bit character rendering used to relate the code's binary strings
to the claim's bit lists. -/
def bitChar (b : Bool) : Char := cond b '1' '0'

/-- The value of a bit list read most-significant first. -/
def bitsVal (bs : List Bool) : Nat :=
  bs.foldl (fun a b => 2 * a + cond b 1 0) 0

/-- The FullCode of the round-trip tuple
`("10.0.0.1", "h1", "AA:BB:CC:DD:EE:FF")` with no salt, uppercased as the
windower renders it (58 hex digits, so the random branch is taken with
`max_offset = 50`). -/
def rtHexU : String := "31302E302E302E317C68317C61613A62623A63633A64643A65653A6666"

/-! ### Shared lemmas -/

theorem pyValEq_str_dict (s : String) (d : DnaDict) :
    pyValEq (.str s) (.dict d) = false := rfl

theorem gen_pos_ok (randbelow : Nat → Nat) (ip hostname mac : String)
    (salt : Option String) (random_window : Bool) (window_len : Int)
    (full_hexArg : Option String) (h : 0 < window_len) :
    ∃ d, generate_dna_token randbelow ip hostname mac salt random_window
      window_len full_hexArg = .ok d := by
  dsimp only [generate_dna_token]
  split_ifs
  · omega
  · exact ⟨_, rfl⟩
  · exact ⟨_, rfl⟩
  · exact ⟨_, rfl⟩

theorem generate_eq_genToken8 (randbelow : Nat → Nat)
    (ip hostname mac : String) (salt : Option String) :
    generate_dna_token randbelow ip hostname mac salt true 8 none =
      .ok (genToken8 randbelow ip hostname mac salt) := by
  obtain ⟨d, hd⟩ := gen_pos_ok randbelow ip hostname mac salt true 8 none (by norm_num)
  unfold genToken8
  rw [hd]

/-! ### Claim theorems -/

/-- C10: when a precomputed `full_hex` argument is supplied,
`generate_dna_token`'s result does not depend on the `ip`, `hostname`,
`mac` or `salt` arguments at all (with the randomness oracle fixed the
outputs coincide pointwise, hence so do the result distributions). -/
theorem C10_supplied_full_hex_independent (randbelow : Nat → Nat)
    (ip1 hostname1 mac1 : String) (salt1 : Option String)
    (ip2 hostname2 mac2 : String) (salt2 : Option String)
    (random_window : Bool) (window_len : Int) (fh : String) :
    generate_dna_token randbelow ip1 hostname1 mac1 salt1 random_window
      window_len (some fh) =
    generate_dna_token randbelow ip2 hostname2 mac2 salt2 random_window
      window_len (some fh) := rfl

/-- C8: `generate_full_hex` is a pure function of the normalized tuple and
the salt — encoding the same input twice yields the same FullCode, and two
tuples whose fields agree after trimming and lowercasing yield the same
FullCode for every salt. -/
theorem C8_encoding_deterministic_and_normalized
    (ip1 h1 m1 ip2 h2 m2 : String) (salt : Option String)
    (hip : pyLower (pyStrip ip1) = pyLower (pyStrip ip2))
    (hh : pyLower (pyStrip h1) = pyLower (pyStrip h2))
    (hm : pyLower (pyStrip m1) = pyLower (pyStrip m2)) :
    generate_full_hex ip1 h1 m1 salt = generate_full_hex ip1 h1 m1 salt ∧
    generate_full_hex ip1 h1 m1 salt = generate_full_hex ip2 h2 m2 salt := by
  refine ⟨rfl, ?_⟩
  unfold generate_full_hex dnaNormalize
  rw [hip, hh, hm]

theorem C8_witness :
    pyLower (pyStrip "  10.0.0.1 ") = pyLower (pyStrip "10.0.0.1") ∧
    pyLower (pyStrip "H1") = pyLower (pyStrip "h1") ∧
    pyLower (pyStrip "AA:BB") = pyLower (pyStrip "aa:bb") ∧
    (generate_full_hex "  10.0.0.1 " "H1" "AA:BB" (some "s") =
        generate_full_hex "  10.0.0.1 " "H1" "AA:BB" (some "s") ∧
      generate_full_hex "  10.0.0.1 " "H1" "AA:BB" (some "s") =
        generate_full_hex "10.0.0.1" "h1" "aa:bb" (some "s")) :=
  ⟨by decide, by decide, by decide,
    C8_encoding_deterministic_and_normalized "  10.0.0.1 " "H1" "AA:BB"
      "10.0.0.1" "h1" "aa:bb" (some "s") (by decide) (by decide) (by decide)⟩

set_option maxRecDepth 200000 in
/-- C2 (code bug): verification in `authority.verify_node` recomputes the
token with `generate_dna_token(..., random_window=True)`, so a fresh
random offset *is* drawn at verification time: at the registered tuple
the recomputed window depends on the `secrets.randbelow` draw (offset 0
versus offset 50, with different tokens), and the genuine claimed tuple
fails to verify against its own freshly stored entry for both draws.
(`flask_api.verify` draws no randomness but never re-derives a FullCode
either: it slices the *stored* `full_hex`.) -/
theorem C2_verify_draws_fresh_random_window :
    (generate_dna_token (fun _ => 0) "10.0.0.1" "h1" "AA:BB:CC:DD:EE:FF"
        none true 8 none).map DnaDict.offset = .ok 0 ∧
    (generate_dna_token (fun n => n - 1) "10.0.0.1" "h1" "AA:BB:CC:DD:EE:FF"
        none true 8 none).map DnaDict.offset = .ok 50 ∧
    (generate_dna_token (fun _ => 0) "10.0.0.1" "h1" "AA:BB:CC:DD:EE:FF"
        none true 8 none).map DnaDict.token ≠
      (generate_dna_token (fun n => n - 1) "10.0.0.1" "h1" "AA:BB:CC:DD:EE:FF"
        none true 8 none).map DnaDict.token ∧
    verify_node (fun _ => 0) "10.0.0.1" "h1" "AA:BB:CC:DD:EE:FF" none
      (register_node (fun _ => 0) "t0" "10.0.0.1" "h1" "AA:BB:CC:DD:EE:FF"
        none []).1 = .ok false ∧
    verify_node (fun n => n - 1) "10.0.0.1" "h1" "AA:BB:CC:DD:EE:FF" none
      (register_node (fun _ => 0) "t0" "10.0.0.1" "h1" "AA:BB:CC:DD:EE:FF"
        none []).1 = .ok false := by decide

/-- C6 (counterexample): a registry file whose contents fail to parse is
*silently* loaded as the empty registry by `flask_api._read_registry`
(the `json.JSONDecodeError` handler returns `[]`), not rejected with a
`RegistryCorrupt` error as the claim states. -/
theorem C6_malformed_load_returns_empty :
    (fun _ : String => (Except.error () : Except Unit (List FRow))) "not json" =
      .error () ∧
    read_registry (fun _ => .error ()) (some "not json") = [] := ⟨rfl, rfl⟩

/-- C6 (amended): an entirely absent storage location loads as the empty
registry with no error (both in `flask_api._read_registry` and in
`authority._ensure_registry`); a present file whose contents are
malformed is *also* recovered as the empty registry — the decode error
is swallowed, and no `RegistryCorrupt` failure exists; well-formed
contents load as their rows. -/
theorem C6_load_missing_empty_malformed_swallowed
    (jsonParse : String → Except Unit (List FRow)) (disk : Option String) :
    (read_registry jsonParse none = [] ∧ ensure_registry none = some []) ∧
    (∀ s, disk = some s → jsonParse s = .error () →
      read_registry jsonParse disk = []) ∧
    (∀ s rows, disk = some s → jsonParse s = .ok rows →
      read_registry jsonParse disk = rows) := by
  refine ⟨⟨rfl, rfl⟩, ?_, ?_⟩
  · intro s hs hp
    subst hs
    simp [read_registry, hp]
  · intro s rows hs hp
    subst hs
    simp [read_registry, hp]

theorem C6_load_witness :
    read_registry (fun _ => .error ()) (some "oops") = [] ∧
    read_registry (fun _ => .ok [] ) (some "[]") = [] :=
  ⟨(C6_load_missing_empty_malformed_swallowed (fun _ => .error ())
      (some "oops")).2.1 "oops" rfl rfl,
    (C6_load_missing_empty_malformed_swallowed (fun _ => .ok [])
      (some "[]")).2.2 "[]" [] rfl rfl⟩

set_option maxRecDepth 200000 in
/-- C4 (counterexample): the duplicate check of `register_node` compares
the raw strings, not the normalized ones, so registering
`("10.0.0.1","h1","AA:BB:CC:DD:EE:FF")` and then
`("10.0.0.1","H1","aa:bb:cc:dd:ee:ff")` — the same device under the
claim's trimmed-and-lowercased equality — leaves *two* registry entries
with the same normalized identity tuple, not one updated entry. -/
theorem C4_normalized_duplicate_not_deduplicated :
    (register_node (fun _ => 0) "t1" "10.0.0.1" "H1" "aa:bb:cc:dd:ee:ff" none
        (register_node (fun _ => 0) "t0" "10.0.0.1" "h1" "AA:BB:CC:DD:EE:FF"
          none []).1).1.length = 2 ∧
    (register_node (fun _ => 0) "t1" "10.0.0.1" "H1" "aa:bb:cc:dd:ee:ff" none
        (register_node (fun _ => 0) "t0" "10.0.0.1" "h1" "AA:BB:CC:DD:EE:FF"
          none []).1).1.map normKey =
      [("10.0.0.1", "h1", "aa:bb:cc:dd:ee:ff"),
       ("10.0.0.1", "h1", "aa:bb:cc:dd:ee:ff")] := by decide

/-- C5: `rotate_tokens` builds the new epoch salt as
`saltPrefix ++ "-" ++ isoDate(utcnow + days)`, re-derives every entry's
dict from that entry's stored tuple and the new salt with the
random-mode windower (`random_window=True`, `window_len=8`), overwrites
each entry in place (its identity fields untouched, its token cell and
`created` stamp replaced), and returns the salt it used. -/
theorem C5_rotate_rederives_every_entry (randbelow : Nat → Nat)
    (now : String) (isoDatePlusDays : Int → String) (days : Int)
    (saltPrefix : String) (rows : List Row) :
    rotate_tokens randbelow now isoDatePlusDays days saltPrefix rows =
      .ok (rows.map (fun r =>
          { r with
            token := pyStrOfDict (genToken8 randbelow r.ip r.hostname r.mac
              (some (saltPrefix ++ "-" ++ isoDatePlusDays days))),
            created := now }),
        saltPrefix ++ "-" ++ isoDatePlusDays days) := by
  unfold rotate_tokens
  have hrows : ∀ rs : List Row,
      rotateRows randbelow now (saltPrefix ++ "-" ++ isoDatePlusDays days) rs =
        .ok (rs.map (fun r =>
          { r with
            token := pyStrOfDict (genToken8 randbelow r.ip r.hostname r.mac
              (some (saltPrefix ++ "-" ++ isoDatePlusDays days))),
            created := now })) := by
    intro rs
    induction rs with
    | nil => rfl
    | cons r t ih =>
      simp [rotateRows, generate_eq_genToken8, ih]
  simp only [hrows]

set_option maxRecDepth 200000 in
theorem pyUpper_roundtrip_hex :
    pyUpper (generate_full_hex "10.0.0.1" "h1" "AA:BB:CC:DD:EE:FF" none) =
      rtHexU := by decide

theorem rtHexU_length : rtHexU.data.length = 58 := by decide

theorem gen_roundtrip (randbelow : Nat → Nat) :
    generate_dna_token randbelow "10.0.0.1" "h1" "AA:BB:CC:DD:EE:FF" none
      true 8 none =
      .ok ⟨rtHexU, ⟨pySlice rtHexU.data (randbelow 51) 8⟩, randbelow 51, 8⟩ := by
  dsimp only [generate_dna_token]
  rw [pyUpper_roundtrip_hex, rtHexU_length]
  norm_num
  constructor
  · rfl
  · rfl

theorem register_roundtrip (rnd1 : Nat → Nat) (now : String) :
    register_node rnd1 now "10.0.0.1" "h1" "AA:BB:CC:DD:EE:FF" none [] =
      ([⟨"10.0.0.1", "h1", "AA:BB:CC:DD:EE:FF",
        pyStrOfDict ⟨rtHexU, ⟨pySlice rtHexU.data (rnd1 51) 8⟩, rnd1 51, 8⟩, now⟩],
       .ok ⟨rtHexU, ⟨pySlice rtHexU.data (rnd1 51) 8⟩, rnd1 51, 8⟩) := by
  have hip : is_valid_ip "10.0.0.1" = true := by decide
  have hmac : is_valid_mac "AA:BB:CC:DD:EE:FF" = true := by decide
  unfold register_node
  rw [gen_roundtrip]
  simp [hip, hmac, updateFirstRow]

/-- C1 (code bug): registering the valid tuple
`("10.0.0.1", "h1", "AA:BB:CC:DD:EE:FF")` with no salt and then verifying
the very same tuple with the same salt and no intervening operation
returns `ok = false` — for *every* randomness draw at registration and at
verification and every timestamp.  The registry does hold exactly the
registered raw tuple (first conjunct); verification still fails, because
`verify_node` compares the CSV cell (the `str()` of the stored dict)
against a freshly drawn dict, and a `str` never equals a `dict` in
Python — and even with the storage fixed, the fresh random window would
almost never match. -/
theorem C1_roundtrip_verify_fails (rnd1 rnd2 : Nat → Nat) (now : String) :
    (register_node rnd1 now "10.0.0.1" "h1" "AA:BB:CC:DD:EE:FF" none []).1.map
        rowKey = [("10.0.0.1", "h1", "AA:BB:CC:DD:EE:FF")] ∧
    verify_node rnd2 "10.0.0.1" "h1" "AA:BB:CC:DD:EE:FF" none
      (register_node rnd1 now "10.0.0.1" "h1" "AA:BB:CC:DD:EE:FF" none []).1 =
      .ok false := by
  have hip : is_valid_ip "10.0.0.1" = true := by decide
  have hmac : is_valid_mac "AA:BB:CC:DD:EE:FF" = true := by decide
  rw [register_roundtrip]
  refine ⟨rfl, ?_⟩
  unfold verify_node
  rw [gen_roundtrip]
  simp [hip, hmac, verify_scan, pyValEq]

theorem pyUpper_length (s : String) : (pyUpper s).data.length = s.data.length :=
  List.length_map _ _

theorem pySlice_length (l : List Char) (a k : Nat) (h : a + k ≤ l.length) :
    (pySlice l a k).length = k := by
  unfold pySlice
  rw [List.length_take, List.length_drop]
  omega

/-- C3: for every FullCode string and window length, the windower's
output satisfies the claimed contract — `window_len <= 0` fails with the
`ValueError`; otherwise the result carries the uppercased FullCode and
the given window length, its token has length exactly `window_len`; when
the FullCode fits the window the token is the uppercased FullCode
left-padded with `'0'` and the offset is 0; otherwise the token is the
slice of the uppercased FullCode at the recorded offset, the offset is
at most `len - window_len`, and deterministic mode forces offset
`len - window_len`.  The hypothesis is the `secrets.randbelow` contract. -/
theorem C3_windowing_correct (randbelow : Nat → Nat) (ip hostname mac : String)
    (salt : Option String) (random_window : Bool) (window_len : Int) (fh : String)
    (hrnd : ∀ n, 0 < n → randbelow n < n) :
    windowerClaim randbelow ip hostname mac salt random_window window_len fh := by
  unfold windowerClaim
  constructor
  · intro hle
    dsimp only [generate_dna_token]
    rw [if_pos hle]
  · intro hpos
    dsimp only [generate_dna_token]
    rw [if_neg (by omega)]
    by_cases hL : (((pyUpper fh).data.length : Int)) ≤ window_len
    · rw [if_pos hL]
      rw [pyUpper_length] at hL
      refine ⟨_, rfl, rfl, rfl, ?_, ?_, ?_⟩
      · show (List.replicate (window_len.toNat - (pyUpper fh).data.length) '0' ++
            (pyUpper fh).data).length = window_len.toNat
        rw [List.length_append, List.length_replicate, pyUpper_length]
        omega
      · intro _
        refine ⟨?_, rfl⟩
        show List.replicate (window_len.toNat - (pyUpper fh).data.length) '0' ++
            (pyUpper fh).data =
          List.replicate (window_len.toNat - fh.data.length) '0' ++ (pyUpper fh).data
        rw [pyUpper_length]
      · intro hlt
        omega
    · rw [if_neg hL]
      rw [pyUpper_length] at hL
      have hl := pyUpper_length fh
      have hoff : (if random_window then
          randbelow ((pyUpper fh).data.length - window_len.toNat + 1)
          else (pyUpper fh).data.length - window_len.toNat) ≤
          fh.data.length - window_len.toNat := by
        split
        · have := hrnd ((pyUpper fh).data.length - window_len.toNat + 1) (by omega)
          omega
        · omega
      refine ⟨_, rfl, rfl, rfl, ?_, ?_, ?_⟩
      · exact pySlice_length _ _ _ (by omega)
      · intro hle2
        omega
      · intro hlt
        refine ⟨hoff, rfl, ?_⟩
        intro hfalse
        subst hfalse
        show (pyUpper fh).data.length - window_len.toNat =
          fh.data.length - window_len.toNat
        rw [pyUpper_length]


theorem C3_windowing_correct_witness :
    (∀ n, 0 < n → (fun _ => 0 : Nat → Nat) n < n) ∧
    windowerClaim (fun _ => 0) "ip" "host" "mac" none true 8 "ABCDEF1234" :=
  ⟨fun _ h => h,
    C3_windowing_correct (fun _ => 0) "ip" "host" "mac" none true 8
      "ABCDEF1234" (fun _ h => h)⟩

theorem rowMatch_iff (r : Row) (ip hostname mac : String) :
    (r.ip = ip && r.mac = mac && r.hostname = hostname) = true ↔
      rowKey r = (ip, hostname, mac) := by
  simp [rowKey, Prod.ext_iff]
  tauto

theorem any_match_iff_mem (rows : List Row) (ip hostname mac : String) :
    (rows.any fun r => r.ip = ip && r.mac = mac && r.hostname = hostname) = true ↔
      (ip, hostname, mac) ∈ rows.map rowKey := by
  rw [List.any_eq_true]
  constructor
  · rintro ⟨r, hr, hm⟩
    exact List.mem_map.mpr ⟨r, hr, (rowMatch_iff r ip hostname mac).mp hm⟩
  · rintro h
    obtain ⟨r, hr, hk⟩ := List.mem_map.mp h
    exact ⟨r, hr, (rowMatch_iff r ip hostname mac).mpr hk⟩

theorem updateFirstRow_keys (ip hostname mac t now : String) (rows : List Row) :
    (updateFirstRow ip hostname mac t now rows).1.map rowKey = rows.map rowKey := by
  induction rows with
  | nil => rfl
  | cons r rest ih =>
    unfold updateFirstRow
    split
    · simp [rowKey]
    · simpa using ih

theorem updateFirstRow_snd (ip hostname mac t now : String) (rows : List Row) :
    (updateFirstRow ip hostname mac t now rows).2 =
      rows.any (fun r => r.ip = ip && r.mac = mac && r.hostname = hostname) := by
  induction rows with
  | nil => rfl
  | cons r rest ih =>
    unfold updateFirstRow
    split
    · rename_i hm
      simp [hm]
    · rename_i hm
      simp only [List.any_cons]
      rw [Bool.not_eq_true] at hm
      rw [hm, Bool.false_or]
      exact ih

theorem updateFirstRow_nomatch (ip hostname mac t now : String) (rows : List Row)
    (h : (rows.any fun r => r.ip = ip && r.mac = mac && r.hostname = hostname) = false) :
    (updateFirstRow ip hostname mac t now rows).1 = rows := by
  induction rows with
  | nil => rfl
  | cons r rest ih =>
    simp only [List.any_cons, Bool.or_eq_false_iff] at h
    unfold updateFirstRow
    split
    · rename_i hm
      rw [h.1] at hm
      cases hm
    · simp [ih h.2]

theorem updateFirstRow_match (ip hostname mac t now : String) (rows : List Row)
    (h : (rows.any fun r => r.ip = ip && r.mac = mac && r.hostname = hostname) = true) :
    ∃ i, ∃ hi : i < rows.length,
      rowKey rows[i] = (ip, hostname, mac) ∧
      (∀ j, ∀ hj : j < rows.length, j < i → rowKey rows[j] ≠ (ip, hostname, mac)) ∧
      (updateFirstRow ip hostname mac t now rows).1 =
        rows.set i { rows[i] with token := t, created := now } := by
  induction rows with
  | nil => cases h
  | cons r rest ih =>
    unfold updateFirstRow
    split
    · rename_i hm
      refine ⟨0, by simp, ?_, ?_, ?_⟩
      · simpa using (rowMatch_iff r ip hostname mac).mp hm
      · intro j hj hj0
        omega
      · simp
    · rename_i hm
      rw [Bool.not_eq_true] at hm
      have hrest : (rest.any fun r =>
          r.ip = ip && r.mac = mac && r.hostname = hostname) = true := by
        simp only [List.any_cons, hm, Bool.false_or] at h
        exact h
      obtain ⟨i, hi, hk, hbefore, hset⟩ := ih hrest
      refine ⟨i + 1, by simpa using Nat.succ_lt_succ hi, ?_, ?_, ?_⟩
      · simpa using hk
      · intro j hj hji
        cases j with
        | zero =>
          simp only [List.getElem_cons_zero]
          intro hkey
          rw [(rowMatch_iff r ip hostname mac).mpr hkey] at hm
          cases hm
        | succ k =>
          simp only [List.getElem_cons_succ]
          exact hbefore k (by simpa using Nat.lt_of_succ_lt_succ hj)
            (Nat.lt_of_succ_lt_succ hji)
      · simp only [List.getElem_cons_succ, List.set_cons_succ]
        rw [← hset]

theorem countP_key_eq_one {α : Type} [DecidableEq α] (l : List α) (k : α)
    (hnd : l.Nodup) (hm : k ∈ l) : l.countP (fun x => x = k) = 1 := by
  induction l with
  | nil => cases hm
  | cons a t ih =>
    rw [List.countP_cons]
    rcases List.mem_cons.mp hm with h | h
    · subst h
      have ht : t.countP (fun x => x = k) = 0 := by
        rw [List.countP_eq_zero]
        intro x hx
        simp only [decide_eq_true_eq]
        intro he
        subst he
        exact (List.nodup_cons.mp hnd).1 hx
      simp [ht]
    · have hne : a ≠ k := by
        intro he
        subst he
        exact (List.nodup_cons.mp hnd).1 h
      rw [ih (List.nodup_cons.mp hnd).2 h]
      simp [hne]

theorem countP_key_eq_zero {α : Type} [DecidableEq α] (l : List α) (k : α)
    (hm : k ∉ l) : l.countP (fun x => x = k) = 0 := by
  rw [List.countP_eq_zero]
  intro x hx
  simp only [decide_eq_true_eq]
  intro he
  subst he
  exact hm hx

/-- C4 (amended): the registry deduplicates on the EXACT raw
`(ip, hostname, mac)` string triple.  For valid inputs registration
always succeeds and: a triple not present verbatim appends exactly one
entry; a triple present verbatim updates the *first* matching entry in
place, replacing only its token cell and timestamp; the
at-most-one-entry-per-raw-triple invariant is preserved; and afterwards
exactly one entry carries the registered key. -/
theorem C4_registry_upsert_exact (randbelow : Nat → Nat)
    (now ip hostname mac : String) (salt : Option String) (rows : List Row)
    (hip : is_valid_ip ip = true) (hmac : is_valid_mac mac = true)
    (hnd : (rows.map rowKey).Nodup) :
    ∃ d : DnaDict,
      (register_node randbelow now ip hostname mac salt rows).2 = .ok d ∧
      ((ip, hostname, mac) ∉ rows.map rowKey →
        (register_node randbelow now ip hostname mac salt rows).1 =
          rows ++ [⟨ip, hostname, mac, pyStrOfDict d, now⟩]) ∧
      ((ip, hostname, mac) ∈ rows.map rowKey →
        ∃ i, ∃ hi : i < rows.length,
          rowKey rows[i] = (ip, hostname, mac) ∧
          (∀ j, ∀ hj : j < rows.length, j < i →
            rowKey rows[j] ≠ (ip, hostname, mac)) ∧
          (register_node randbelow now ip hostname mac salt rows).1 =
            rows.set i { rows[i] with token := pyStrOfDict d, created := now }) ∧
      ((register_node randbelow now ip hostname mac salt rows).1.map rowKey).Nodup ∧
      ((register_node randbelow now ip hostname mac salt rows).1.map rowKey).countP
        (fun k => k = (ip, hostname, mac)) = 1 := by
  obtain ⟨d, hd⟩ := gen_pos_ok randbelow ip hostname mac salt true 8 none (by norm_num)
  refine ⟨d, ?_⟩
  have hreg : register_node randbelow now ip hostname mac salt rows =
      (if (updateFirstRow ip hostname mac (pyStrOfDict d) now rows).2 = true then
        ((updateFirstRow ip hostname mac (pyStrOfDict d) now rows).1, .ok d)
      else (rows ++ [⟨ip, hostname, mac, pyStrOfDict d, now⟩], .ok d)) := by
    unfold register_node
    rw [hd]
    simp [hip, hmac]
  by_cases hmem : (ip, hostname, mac) ∈ rows.map rowKey
  · have hany : (rows.any fun r =>
        r.ip = ip && r.mac = mac && r.hostname = hostname) = true :=
      (any_match_iff_mem rows ip hostname mac).mpr hmem
    have hsnd := updateFirstRow_snd ip hostname mac (pyStrOfDict d) now rows
    rw [hany] at hsnd
    rw [hreg, if_pos hsnd]
    obtain ⟨i, hi, hk, hbefore, hset⟩ :=
      updateFirstRow_match ip hostname mac (pyStrOfDict d) now rows hany
    refine ⟨rfl, fun hn => absurd hmem hn, fun _ => ⟨i, hi, hk, hbefore, hset⟩, ?_, ?_⟩
    · show ((updateFirstRow ip hostname mac (pyStrOfDict d) now rows).1.map rowKey).Nodup
      rw [updateFirstRow_keys]
      exact hnd
    · show ((updateFirstRow ip hostname mac (pyStrOfDict d) now rows).1.map
        rowKey).countP (fun k => k = (ip, hostname, mac)) = 1
      rw [updateFirstRow_keys]
      exact countP_key_eq_one _ _ hnd hmem
  · have hany : (rows.any fun r =>
        r.ip = ip && r.mac = mac && r.hostname = hostname) = false := by
      rw [← Bool.not_eq_true]
      intro hc
      exact hmem ((any_match_iff_mem rows ip hostname mac).mp hc)
    have hsnd := updateFirstRow_snd ip hostname mac (pyStrOfDict d) now rows
    rw [hany] at hsnd
    rw [hreg, if_neg (by rw [hsnd]; exact Bool.false_ne_true)]
    refine ⟨rfl, fun _ => rfl, fun hm => absurd hm hmem, ?_, ?_⟩
    · show ((rows ++ [(⟨ip, hostname, mac, pyStrOfDict d, now⟩ : Row)]).map rowKey).Nodup
      rw [List.map_append, List.nodup_append]
      refine ⟨hnd, by simp, ?_⟩
      intro a ha
      simp only [List.map_cons, List.map_nil, List.mem_singleton]
      intro hc
      rw [show rowKey (⟨ip, hostname, mac, pyStrOfDict d, now⟩ : Row) =
        (ip, hostname, mac) from rfl] at hc
      subst hc
      exact hmem ha
    · show ((rows ++ [(⟨ip, hostname, mac, pyStrOfDict d, now⟩ : Row)]).map rowKey).countP
        (fun k => k = (ip, hostname, mac)) = 1
      rw [List.map_append, List.countP_append]
      rw [countP_key_eq_zero _ _ hmem]
      simp [rowKey]


set_option maxRecDepth 400000 in
theorem C4_registry_upsert_exact_witness :
    is_valid_ip "10.0.0.1" = true ∧
    is_valid_mac "AA:BB:CC:DD:EE:FF" = true ∧
    (([] : List Row).map rowKey).Nodup ∧
    (∃ d : DnaDict,
      (register_node (fun _ => 0) "t0" "10.0.0.1" "h1" "AA:BB:CC:DD:EE:FF"
        none []).2 = .ok d ∧
      (("10.0.0.1", "h1", "AA:BB:CC:DD:EE:FF") ∉ ([] : List Row).map rowKey →
        (register_node (fun _ => 0) "t0" "10.0.0.1" "h1" "AA:BB:CC:DD:EE:FF"
          none []).1 =
          [] ++ [⟨"10.0.0.1", "h1", "AA:BB:CC:DD:EE:FF", pyStrOfDict d, "t0"⟩]) ∧
      (("10.0.0.1", "h1", "AA:BB:CC:DD:EE:FF") ∈ ([] : List Row).map rowKey →
        ∃ i, ∃ hi : i < ([] : List Row).length,
          rowKey ([] : List Row)[i] = ("10.0.0.1", "h1", "AA:BB:CC:DD:EE:FF") ∧
          (∀ j, ∀ hj : j < ([] : List Row).length, j < i →
            rowKey ([] : List Row)[j] ≠ ("10.0.0.1", "h1", "AA:BB:CC:DD:EE:FF")) ∧
          (register_node (fun _ => 0) "t0" "10.0.0.1" "h1" "AA:BB:CC:DD:EE:FF"
            none []).1 =
            ([] : List Row).set i
              { ([] : List Row)[i] with token := pyStrOfDict d, created := "t0" }) ∧
      ((register_node (fun _ => 0) "t0" "10.0.0.1" "h1" "AA:BB:CC:DD:EE:FF"
        none []).1.map rowKey).Nodup ∧
      ((register_node (fun _ => 0) "t0" "10.0.0.1" "h1" "AA:BB:CC:DD:EE:FF"
        none []).1.map rowKey).countP
        (fun k => k = ("10.0.0.1", "h1", "AA:BB:CC:DD:EE:FF")) = 1) :=
  ⟨by decide, by decide, by simp,
    C4_registry_upsert_exact (fun _ => 0) "t0" "10.0.0.1" "h1"
      "AA:BB:CC:DD:EE:FF" none [] (by decide) (by decide) (by simp)⟩


theorem pyDigitVal_le9 (c : Char) : pyDigitVal c ≤ 9 := by
  unfold pyDigitVal
  cases hf : ndBases.find? (fun b => b ≤ c.toNat && c.toNat ≤ b + 9) with
  | none => simp
  | some b =>
    have hp := List.find?_some hf
    rw [Bool.and_eq_true, decide_eq_true_eq, decide_eq_true_eq] at hp
    simp
    omega

theorem pyIsDigit_of_ascii (c : Char) (h1 : 48 ≤ c.toNat) (h2 : c.toNat ≤ 57) :
    pyIsDigit c = true := by
  unfold pyIsDigit ndBases
  rw [List.any_cons, Bool.or_eq_true]
  left
  rw [Bool.and_eq_true, decide_eq_true_eq, decide_eq_true_eq]
  omega

theorem pyDigitVal_ascii (c : Char) (h1 : 48 ≤ c.toNat) (h2 : c.toNat ≤ 57) :
    pyDigitVal c = c.toNat - 48 := by
  have hfind : List.find? (fun b => b ≤ c.toNat && c.toNat ≤ b + 9) ndBases =
      some 48 := by
    unfold ndBases
    apply List.find?_cons_of_pos
    rw [Bool.and_eq_true, decide_eq_true_eq, decide_eq_true_eq]
    omega
  unfold pyDigitVal
  rw [hfind]

theorem isValidOctet_claim (l : List Char) (h : isValidOctet l = true) :
    claimOctetUni l = true := by
  have d1 : pyIsDigit '1' = true := by decide
  have d2 : pyIsDigit '2' = true := by decide
  have d5 : pyIsDigit '5' = true := by decide
  have v1 : pyDigitVal '1' = 1 := by decide
  have v2 : pyDigitVal '2' = 2 := by decide
  have v5 : pyDigitVal '5' = 5 := by decide
  unfold isValidOctet at h
  split at h
  · rename_i c
    rw [Bool.and_eq_true, decide_eq_true_eq, decide_eq_true_eq] at h
    have h1 : 48 ≤ c.toNat := h.1
    have h2 : c.toNat ≤ 53 := h.2
    have hd : pyIsDigit c = true := pyIsDigit_of_ascii c h1 (by omega)
    have hv : pyDigitVal c = c.toNat - 48 := pyDigitVal_ascii c h1 (by omega)
    simp [claimOctetUni, pyDecimalVal, hd, d2, d5, v2, v5, hv]
    omega
  · rename_i c d hne
    rw [Bool.and_eq_true, Bool.and_eq_true, decide_eq_true_eq, decide_eq_true_eq] at h
    have h1 : 48 ≤ c.toNat := h.1.1
    have h2 : c.toNat ≤ 52 := h.1.2
    have hd : pyIsDigit c = true := pyIsDigit_of_ascii c h1 (by omega)
    have hv : pyDigitVal c = c.toNat - 48 := pyDigitVal_ascii c h1 (by omega)
    have hd9 := pyDigitVal_le9 d
    simp [claimOctetUni, pyDecimalVal, hd, h.2, d2, v2, hv]
    omega
  · rename_i c d
    rw [Bool.and_eq_true] at h
    have hc9 := pyDigitVal_le9 c
    have hd9 := pyDigitVal_le9 d
    simp [claimOctetUni, pyDecimalVal, h.1, h.2, d1, v1]
    omega
  · rename_i c d
    rw [Bool.and_eq_true] at h
    have hc9 := pyDigitVal_le9 c
    have hd9 := pyDigitVal_le9 d
    simp [claimOctetUni, pyDecimalVal, h.1, h.2]
    omega
  · rename_i c
    have hc9 := pyDigitVal_le9 c
    simp [claimOctetUni, pyDecimalVal, h]
    omega
  · cases h

theorem ipCore_claim (l : List Char) (h : ipCore l = true) :
    claimAddrUniCore l = true := by
  unfold ipCore at h
  unfold claimAddrUniCore
  split at h
  · rename_i a b c d heq
    simp only [Bool.and_eq_true] at h ⊢
    exact ⟨⟨⟨isValidOctet_claim _ h.1.1.1, isValidOctet_claim _ h.1.1.2⟩,
      isValidOctet_claim _ h.1.2⟩, isValidOctet_claim _ h.2⟩
  · cases h

theorem is_valid_ip_claim (s : String) (h : is_valid_ip s = true) :
    claimAddrUniNL s = true := by
  unfold is_valid_ip reDollar at h
  unfold claimAddrUniNL
  rw [Bool.or_eq_true] at h ⊢
  rcases h with h | h
  · exact Or.inl (ipCore_claim _ h)
  · rw [Bool.and_eq_true] at h ⊢
    exact Or.inr ⟨h.1, ipCore_claim _ h.2⟩

theorem macColonCore_claim (l : List Char) (h : macColonCore l = true) :
    claimHwColon l = true := by
  unfold macColonCore at h
  unfold claimHwColon
  split at h
  · rename_i a b c d e f heq
    simp only [Bool.and_eq_true] at h
    rw [heq]
    simp [h.1.1.1.1.1, h.1.1.1.1.2, h.1.1.1.2, h.1.1.2, h.1.2, h.2]
  · cases h

theorem macDotCore_claim (l : List Char) (h : macDotCore l = true) :
    claimHwDot l = true := by
  unfold macDotCore at h
  unfold claimHwDot
  split at h
  · rename_i a b c heq
    simp only [Bool.and_eq_true] at h
    rw [heq]
    simp [h.1.1, h.1.2, h.2]
  · cases h

theorem dropWhile_head_not (p : Char → Bool) (l : List Char) (a : Char)
    (h : (l.dropWhile p).head? = some a) : p a = false := by
  induction l with
  | nil => cases h
  | cons x t ih =>
    by_cases hp : p x
    · rw [List.dropWhile_cons_of_pos hp] at h
      exact ih h
    · rw [List.dropWhile_cons_of_neg hp] at h
      rw [List.head?_cons, Option.some_inj] at h
      subst h
      exact Bool.not_eq_true _ ▸ hp

theorem stripped_last_not_newline (l : List Char) :
    (pyStripList l).getLast? ≠ some '\n' := by
  unfold pyStripList
  rw [List.getLast?_reverse]
  intro h
  have hn := dropWhile_head_not pyIsSpace _ _ h
  have : pyIsSpace '\n' = true := by decide
  rw [this] at hn
  cases hn

theorem is_valid_mac_claim (s : String) (h : is_valid_mac s = true) :
    claimHwValidStripped s = true := by
  unfold is_valid_mac reDollar at h
  unfold claimHwValidStripped claimHwValid
  have hlast : ∀ b : Bool,
      ((pyStripList s.data).getLast? = some '\n' && b) = false := by
    intro b
    have := stripped_last_not_newline s.data
    simp [this]
  simp only [hlast, Bool.or_false] at h
  rw [Bool.or_eq_true, Bool.or_eq_true] at h ⊢
  show (claimHwColon (pyStripList s.data) = true ∨
      claimHwBare (pyStripList s.data) = true) ∨
    claimHwDot (pyStripList s.data) = true
  rcases h with (h | h) | h
  · exact Or.inl (Or.inl (macColonCore_claim _ h))
  · exact Or.inl (Or.inr h)
  · exact Or.inr (macDotCore_claim _ h)

set_option maxRecDepth 400000 in
/-- C7 (counterexample): the program accepts inputs outside every form
the claim names, one witness per divergence.  `" AABBCCDDEEFF "` is not,
as literally supplied, a colon-separated, dot-grouped or bare
12-hex-digit string, yet registration succeeds because `is_valid_mac`
strips it first.  `"\u06610.0.0.1"` (an Arabic-Indic digit one in the
first octet) is not dotted-quad decimal, yet Python's `\d` matches any
Unicode decimal digit, `is_valid_ip` accepts it and registration
succeeds.  `"1.1.1.1\n"` is not dotted-quad decimal either, yet the `$`
anchor matches before the trailing newline and `is_valid_ip` accepts
it.  In each case no `InvalidAddress`/`InvalidHardwareId` failure
occurs, contradicting the claim's universal rejection statement. -/
theorem C7_accepts_non_claimed_forms :
    claimHwValid " AABBCCDDEEFF " = false ∧
    exceptOk (register_node (fun _ => 0) "t0" "10.0.0.1" "h" " AABBCCDDEEFF "
      none []).2 = true ∧
    (register_node (fun _ => 0) "t0" "10.0.0.1" "h" " AABBCCDDEEFF "
      none []).1.length = 1 ∧
    claimAddrValid "\u06610.0.0.1" = false ∧
    exceptOk (register_node (fun _ => 0) "t0" "\u06610.0.0.1" "h"
      "AA:BB:CC:DD:EE:FF" none []).2 = true ∧
    (register_node (fun _ => 0) "t0" "\u06610.0.0.1" "h"
      "AA:BB:CC:DD:EE:FF" none []).1.length = 1 ∧
    claimAddrValid "1.1.1.1\n" = false ∧
    is_valid_ip "1.1.1.1\n" = true := by decide

/-- C7 (amended): `register_node` fails with
`ValueError("Invalid IP address: …")` for every address that is not
dotted-quad with octets of Unicode decimal digits (the class Python's
`\d` matches) valued 0–255, allowing the single trailing newline the
regex `$` anchor tolerates, and — for accepted addresses — fails with `ValueError("Invalid MAC address: …")` for every hardware
identifier that is not, after trimming surrounding whitespace,
colon-separated hex octets, dot-grouped 4-hex-digit groups, or a bare
12-hex-digit string; in either case the registry rows are returned
unchanged (the exception is raised before the file is rewritten). -/
theorem C7_input_rejection (randbelow : Nat → Nat) (now ip hostname mac : String)
    (salt : Option String) (rows : List Row) :
    (claimAddrUniNL ip = false →
      register_node randbelow now ip hostname mac salt rows =
        (rows, .error ("Invalid IP address: " ++ ip))) ∧
    (is_valid_ip ip = true → claimHwValidStripped mac = false →
      register_node randbelow now ip hostname mac salt rows =
        (rows, .error ("Invalid MAC address: " ++ mac))) := by
  constructor
  · intro hclaim
    have hip : is_valid_ip ip = false := by
      rw [← Bool.not_eq_true]
      intro hc
      rw [is_valid_ip_claim ip hc] at hclaim
      cases hclaim
    unfold register_node
    rw [hip]
    simp
  · intro hip hclaim
    have hmac : is_valid_mac mac = false := by
      rw [← Bool.not_eq_true]
      intro hc
      rw [is_valid_mac_claim mac hc] at hclaim
      cases hclaim
    unfold register_node
    rw [hip, hmac]
    simp

theorem C7_input_rejection_witness :
    claimAddrUniNL "999.1.1.1" = false ∧
    register_node (fun _ => 0) "t0" "999.1.1.1" "h" "AA:BB:CC:DD:EE:FF" none [] =
      ([], .error "Invalid IP address: 999.1.1.1") ∧
    is_valid_ip "10.0.0.1" = true ∧
    claimHwValidStripped "nonsense" = false ∧
    register_node (fun _ => 0) "t0" "10.0.0.1" "h" "nonsense" none [] =
      ([], .error "Invalid MAC address: nonsense") := by
  refine ⟨by decide, ?_, by decide, by decide, ?_⟩
  · exact (C7_input_rejection (fun _ => 0) "t0" "999.1.1.1" "h"
      "AA:BB:CC:DD:EE:FF" none []).1 (by decide)
  · exact (C7_input_rejection (fun _ => 0) "t0" "10.0.0.1" "h"
      "nonsense" none []).2 (by decide) (by decide)

set_option maxRecDepth 4000 in
theorem binPad8_eq : ∀ n, n < 256 →
    binPad8 n = (specByteBits n).map bitChar := by decide

theorem tableVal : ∀ a b : Bool,
    (dnaDigitChar (dnaPairChar (bitChar a) (bitChar b))).toNat - 48 =
      specSymDigit (specPairSym (a, b)) := by decide

theorem pairs_fold_eq : ∀ (bs : List Bool) (acc : Nat),
    ((binPairsToDna (bs.map bitChar)).map dnaDigitChar).foldl
      (fun v ch => v * 4 + (ch.toNat - 48)) acc =
    ((specPairs bs).map (fun p => specSymDigit (specPairSym p))).foldl
      (fun a d => 4 * a + d) acc
  | [], _ => rfl
  | [_], _ => rfl
  | a :: b :: t, acc => by
    simp only [List.map_cons, binPairsToDna, specPairs, List.foldl_cons]
    rw [pairs_fold_eq t]
    congr 1
    rw [tableVal a b]
    ring_nf

theorem binary_pipeline_val (bs : List Bool) :
    base4_to_int (dna_to_base4_digits (binary_to_dna ⟨bs.map bitChar⟩)) =
    specBase4Val (((specPadPairs bs).map specPairSym).map specSymDigit) := by
  unfold binary_to_dna specPadPairs base4_to_int dna_to_base4_digits specBase4Val
  dsimp only
  rw [List.map_map, List.length_map]
  by_cases hpar : bs.length % 2 = 1
  · rw [if_pos (by omega), if_pos hpar]
    have h0 : ('0' :: bs.map bitChar) = (false :: bs).map bitChar := rfl
    rw [h0]
    simpa [Function.comp] using pairs_fold_eq (false :: bs) 0
  · rw [if_neg (by omega), if_neg hpar]
    simpa [Function.comp] using pairs_fold_eq bs 0

theorem map_binPad8_eq (l : List Char) (h : ∀ c ∈ l, c.toNat < 256) :
    (l.map (fun c => binPad8 c.toNat)).flatten =
    ((l.map (fun c => specByteBits c.toNat)).flatten).map bitChar := by
  induction l with
  | nil => rfl
  | cons c t ih =>
    simp only [List.map_cons, List.flatten_cons, List.map_append]
    rw [binPad8_eq c.toNat (h c (by simp)), ih (fun x hx => h x (by simp [hx]))]

theorem full_hex_pipeline_eq (s : String) (h : ∀ c ∈ s.data, c.toNat < 256) :
    base4_to_int (dna_to_base4_digits (binary_to_dna (str_to_binary s))) =
    specBase4Val (((specPadPairs
      (((s.data.map Char.toNat).map specByteBits).flatten)).map specPairSym).map
        specSymDigit) := by
  have hb : str_to_binary s =
      ⟨(((s.data.map Char.toNat).map specByteBits).flatten).map bitChar⟩ := by
    unfold str_to_binary
    rw [List.map_map]
    exact congrArg String.mk (map_binPad8_eq s.data h)
  rw [hb]
  exact binary_pipeline_val _

set_option maxRecDepth 4000 in
theorem ofNat_toNat_small : ∀ n, n < 256 → (Char.ofNat n).toNat = n := by decide

theorem pyLowerChar_lt (c : Char) (h : c.toNat < 256) :
    (pyLowerChar c).toNat < 256 := by
  unfold pyLowerChar
  split
  · rename_i hc
    rw [Bool.and_eq_true, decide_eq_true_eq, decide_eq_true_eq] at hc
    have h1 : 65 ≤ c.toNat := hc.1
    have h2 : c.toNat ≤ 90 := hc.2
    rw [ofNat_toNat_small (c.toNat + 32) (by omega)]
    omega
  · exact h

theorem pyStripList_subset (l : List Char) : ∀ c ∈ pyStripList l, c ∈ l := by
  intro c hc
  unfold pyStripList at hc
  rw [List.mem_reverse] at hc
  have h1 := (List.dropWhile_sublist _).mem hc
  rw [List.mem_reverse] at h1
  exact (List.dropWhile_sublist _).mem h1

theorem pyNorm_lt (s : String) (h : ∀ c ∈ s.data, c.toNat < 256) :
    ∀ c ∈ (pyLower (pyStrip s)).data, c.toNat < 256 := by
  intro c hc
  unfold pyLower pyStrip at hc
  simp only [List.mem_map] at hc
  obtain ⟨a, ha, hac⟩ := hc
  subst hac
  exact pyLowerChar_lt a (h a (pyStripList_subset s.data a ha))

theorem append_lt (s t : String) (hs : ∀ c ∈ s.data, c.toNat < 256)
    (ht : ∀ c ∈ t.data, c.toNat < 256) :
    ∀ c ∈ (s ++ t).data, c.toNat < 256 := by
  intro c hc
  rw [String.data_append] at hc
  rcases List.mem_append.mp hc with h | h
  · exact hs c h
  · exact ht c h

theorem pipe_lt : ∀ c ∈ ("|" : String).data, c.toNat < 256 := by decide

/-- C9: for every identity tuple and salt over single-byte characters
(the "underlying byte sequence" of the text; all real inputs are ASCII),
`generate_full_hex` equals the claim's pipeline: concatenate the
normalized fields (and non-empty salt) with the separator, emit each
byte's 8 bits most-significant first in byte order, pair the bits
(prepending one `0` bit when the count is odd), map each pair through the
fixed reversible 4-symbol table and back to base-4 digits, read them as a
base-4 integer most-significant digit first, and render it as minimal
lowercase hexadecimal. -/
theorem C9_fullcode_bit_pipeline (ip hostname mac : String) (salt : Option String)
    (hip : ∀ c ∈ ip.data, c.toNat < 256)
    (hh : ∀ c ∈ hostname.data, c.toNat < 256)
    (hm : ∀ c ∈ mac.data, c.toNat < 256)
    (hs : ∀ s, salt = some s → ∀ c ∈ s.data, c.toNat < 256) :
    generate_full_hex ip hostname mac salt = specFullCode ip hostname mac salt := by
  unfold generate_full_hex specFullCode dnaNormalize
  dsimp only
  have hbase : ∀ c ∈ ((pyLower (pyStrip ip) ++ "|" ++ pyLower (pyStrip hostname) ++
      "|" ++ pyLower (pyStrip mac)).data), c.toNat < 256 :=
    append_lt _ _ (append_lt _ _ (append_lt _ _ (append_lt _ _
      (pyNorm_lt ip hip) pipe_lt) (pyNorm_lt hostname hh)) pipe_lt)
      (pyNorm_lt mac hm)
  cases salt with
  | none =>
    exact congrArg natToHexLower (full_hex_pipeline_eq _ hbase)
  | some s =>
    by_cases hse : s = ""
    · simp only [hse, ne_eq, not_true_eq_false, if_false]
      exact congrArg natToHexLower (full_hex_pipeline_eq _ hbase)
    · simp only [ne_eq, hse, not_false_eq_true, if_true]
      exact congrArg natToHexLower (full_hex_pipeline_eq _
        (append_lt _ _ (append_lt _ _ hbase pipe_lt) (hs s rfl)))


theorem C9_fullcode_bit_pipeline_witness :
    (∀ c ∈ ("10.0.0.1" : String).data, c.toNat < 256) ∧
    (∀ c ∈ ("h1" : String).data, c.toNat < 256) ∧
    (∀ c ∈ ("AA" : String).data, c.toNat < 256) ∧
    (∀ s, (some "e7" : Option String) = some s → ∀ c ∈ s.data, c.toNat < 256) ∧
    generate_full_hex "10.0.0.1" "h1" "AA" (some "e7") =
      specFullCode "10.0.0.1" "h1" "AA" (some "e7") :=
  ⟨by decide, by decide, by decide,
    by
      intro s hs
      injection hs with h
      subst h
      decide,
    C9_fullcode_bit_pipeline "10.0.0.1" "h1" "AA" (some "e7") (by decide)
      (by decide) (by decide)
      (by
        intro s hs
        injection hs with h
        subst h
        decide)⟩
